import Mathlib

/-!
Verification of the authoritative Gomoku room/game engine (`server/index.js`).

The server keeps each room as
`{ players: {black, white, third}, board, turn, settings }` where `board` is a
`boardSize × boardSize` array of numbers (0 empty, 1 black, 2 white, 3 third)
and `turn ∈ {1,2,3}`.  Cells are read as `board[y][x]`; a JavaScript read of a
missing index yields `undefined`, which we model with `Option Nat` (`none` =
`undefined`, `some v` = the number `v`).  All handlers below are direct
translations of the corresponding socket handlers and helper functions.
-/

namespace Gomoku

/-- `inBounds(x, y, size)`: `x >= 0 && x < size && y >= 0 && y < size`. -/
def inBounds (x y : Int) (size : Nat) : Prop :=
  0 ≤ x ∧ x < (size : Int) ∧ 0 ≤ y ∧ y < (size : Int)

instance (x y : Int) (size : Nat) : Decidable (inBounds x y size) := by
  unfold inBounds; infer_instance

/-- The JavaScript read `board[y][x]`: `none` models `undefined` (row or
column index out of range, including negative indices). -/
def cellAt (board : List (List Nat)) (x y : Int) : Option Nat :=
  if 0 ≤ x ∧ 0 ≤ y then ((board.get? y.toNat).getD []).get? x.toNat else none

/-- The JavaScript write `board[y][x] = v` (only reached behind an
`inBounds` guard in the server, so nonnegative in-range indices). -/
def setCell (board : List (List Nat)) (x y : Int) (v : Nat) : List (List Nat) :=
  board.set y.toNat (((board.get? y.toNat).getD []).set x.toNat v)

/-- `createEmptyBoard(size)`: `size` rows of `size` zeros. -/
def createEmptyBoard (size : Nat) : List (List Nat) :=
  List.replicate size (List.replicate size 0)

/-- The four scan directions of `checkWin`: horizontal, vertical, the two
diagonals. -/
def dirs : List (Int × Int) := [(1, 0), (0, 1), (1, 1), (1, -1)]

/-- The condition of the two `while` loops inside `checkWin`:
`inBounds(nx, ny, board.length) && board[ny][nx] === target`. -/
def okCell (board : List (List Nat)) (target : Option Nat) (x y : Int) : Prop :=
  inBounds x y board.length ∧ cellAt board x y = target

instance (board : List (List Nat)) (target : Option Nat) (x y : Int) :
    Decidable (okCell board target x y) := by
  unfold okCell; infer_instance

/-- One `while` loop of `checkWin`: starting at `(x, y)`, count how many
consecutive steps in direction `(dx, dy)` stay in bounds and hold `target`.
The loop moves one coordinate by `±1` each step through `[0, board.length)`,
so `board.length` steps of fuel are exactly enough for the four directions
used (the loop condition fails before the fuel can run out). -/
def countDir (board : List (List Nat)) (target : Option Nat) (dx dy : Int) :
    Nat → Int → Int → Nat
  | 0, _, _ => 0
  | fuel + 1, x, y =>
      if okCell board target (x + dx) (y + dy) then
        countDir board target dx dy fuel (x + dx) (y + dy) + 1
      else 0

/-- `checkWin(board, x, y, winCondition)`: from the cell `(x, y)` count the
consecutive run of `target`-valued cells in each of the four directions
(forward plus backward plus the cell itself) and report whether any run
reaches `winCondition`. -/
def checkWin (board : List (List Nat)) (x y : Int) (winCondition : Nat) : Bool :=
  let target := cellAt board x y
  if target = some 0 then false
  else
    dirs.any fun d =>
      decide (winCondition ≤
        1 + countDir board target d.1 d.2 board.length x y
          + countDir board target (-d.1) (-d.2) board.length x y)

/-- `checkDraw(board)`: scan all cells, `false` as soon as an empty (0) cell
is found, `true` when the board is full. -/
def checkDraw (board : List (List Nat)) : Bool :=
  board.all fun row => row.all fun c => decide (c ≠ 0)

/-- `getOppositeTurn(turn, playerCount)`. -/
def getOppositeTurn (turn : Nat) (playerCount : Nat) : Nat :=
  if playerCount = 2 then
    if turn = 1 then 2 else 1
  else
    if turn = 1 then 2 else if turn = 2 then 3 else 1

/-- The room settings `{playerCount, winCondition, boardSize}`, fixed at
creation time. -/
structure Settings where
  playerCount : Nat
  winCondition : Nat
  boardSize : Nat
deriving DecidableEq, Repr

/-- The `players` record of a room.  `none` models both JavaScript `null`
and `undefined` (the server only ever tests sockets for truthiness or
compares them to a concrete socket id, so the two are interchangeable);
socket ids are modelled as natural numbers. -/
structure Players where
  black : Option Nat
  white : Option Nat
  third : Option Nat
deriving DecidableEq, Repr

/-- One room: `rooms[roomId] = { players, board, turn, settings }`. -/
structure Room where
  players : Players
  board : List (List Nat)
  turn : Nat
  settings : Settings
deriving DecidableEq, Repr

/-- The value of `socket.data.side`: the strings `"black"`, `"white"`,
`"green"` (the third player's seat) and `"spectator"`. -/
inductive Side where
  | black
  | white
  | green
  | spectator
deriving DecidableEq, Repr

/-- `side === "black" ? 1 : side === "white" ? 2 : 3` (evaluated in the
`place_piece` handler after spectators have been filtered out). -/
def playerNumOf (side : Side) : Nat :=
  if side = Side.black then 1 else if side = Side.white then 2 else 3

/-- `turn === 1 ? "black" : turn === 2 ? "white" : "green"`. -/
def turnSide (turn : Nat) : Side :=
  if turn = 1 then Side.black else if turn = 2 then Side.white else Side.green

/-- The socket.io messages the server emits.  `roomState` carries the
occupancy booleans `!!players.black` / `!!players.white`, the optional
`third` occupancy (JavaScript `undefined` modelled as `none`), the turn
and the optional `settings` field. -/
inductive Event where
  | joinedAck (side : Side) (turn : Nat) (board : List (List Nat)) (settings : Settings)
  | roomState (black white : Bool) (third : Option Bool) (turn : Nat)
      (settings : Option Settings)
  | piecePlaced (x y : Int) (player : Side)
  | gameOverWin (winner : Side)
  | gameOverDraw
  | turnChanged (turn : Side)
  | resetDone (board : List (List Nat)) (turn : Side)
deriving DecidableEq, Repr

/-- The full `room_state` payload used by the `join_room`, `place_piece`,
`reset_game` and `disconnect` handlers: black/white occupancy, `third`
occupancy when `playerCount === 3` (`undefined` otherwise), turn, settings. -/
def roomStateFull (room : Room) : Event :=
  Event.roomState room.players.black.isSome room.players.white.isSome
    (if room.settings.playerCount = 3 then some room.players.third.isSome else none)
    room.turn (some room.settings)

/-- The `rooms.set(roomId, {...})` value of both the explicit
`/api/create-room` endpoint and the implicit creation inside `join_room`:
empty seats, fresh empty board, black to move. -/
def initialRoom (settings : Settings) : Room :=
  { players := { black := none, white := none, third := none }
    board := createEmptyBoard settings.boardSize
    turn := 1
    settings := settings }

/-- The seat-assignment part of the `join_room` handler: first free seat in
the order black, white, then (only when `playerCount === 3`) third; all
seats taken means spectator.  Returns the updated room and the assigned
`socket.data.side`. -/
def join_room (room : Room) (sid : Nat) : Room × Side :=
  if room.players.black = none then
    ({ room with players := { room.players with black := some sid } }, Side.black)
  else if room.players.white = none then
    ({ room with players := { room.players with white := some sid } }, Side.white)
  else if room.settings.playerCount = 3 ∧ room.players.third = none then
    ({ room with players := { room.players with third := some sid } }, Side.green)
  else
    (room, Side.spectator)

/-- The `get_room_state` handler's reply to the requesting socket: it sends
only `{players: {black, white}, turn}` — no `third` field and no
`settings` field. -/
def get_room_state (room : Room) : Event :=
  Event.roomState room.players.black.isSome room.players.white.isSome
    none room.turn none

/-- The `place_piece` handler for a room that exists.  `side` is the
sender's `socket.data.side`, `(x, y)` the payload coordinates.  Returns the
updated room and the list of messages broadcast to the room (an early
`return` emits nothing). -/
def place_piece (room : Room) (side : Side) (x y : Int) : Room × List Event :=
  if ¬(side = Side.black ∨ side = Side.white ∨ side = Side.green) then
    (room, [])
  else
    let playerNum := playerNumOf side
    if room.turn ≠ playerNum then (room, [])
    else if ¬inBounds x y room.settings.boardSize then (room, [])
    else if cellAt room.board x y ≠ some 0 then (room, [])
    else
      let board1 := setCell room.board x y playerNum
      let room1 := { room with board := board1 }
      if checkWin board1 x y room.settings.winCondition then
        (room1, [Event.piecePlaced x y side, Event.gameOverWin side])
      else if checkDraw board1 then
        (room1, [Event.piecePlaced x y side, Event.gameOverDraw])
      else
        let room2 := { room1 with turn := getOppositeTurn room1.turn room.settings.playerCount }
        (room2,
          [Event.piecePlaced x y side,
           Event.turnChanged (turnSide room2.turn),
           roomStateFull room2])

/-- The room mutation of the `reset_game` handler: fresh empty board of the
room's configured size, black to move; players and settings untouched. -/
def reset_game (room : Room) : Room :=
  { room with board := createEmptyBoard room.settings.boardSize, turn := 1 }

/-- The whole `reset_game` handler: looks the room up (no-op when the code
is unknown), resets it, and broadcasts `reset_done` plus the full room
state.  `senderSide` is the sender's binding, which the handler never
reads. -/
def reset_handler (roomOpt : Option Room) (senderSide : Side) :
    Option Room × List Event :=
  match roomOpt with
  | none => (none, [])
  | some room =>
      let room1 := reset_game room
      (some room1, [Event.resetDone room1.board Side.black, roomStateFull room1])

/-- The seat-clearing part of the `disconnect` handler: every seat whose
socket id equals the leaving socket's id is set back to `null`. -/
def disconnect (room : Room) (sid : Nat) : Room :=
  { room with players :=
      { black := if room.players.black = some sid then none else room.players.black
        white := if room.players.white = some sid then none else room.players.white
        third := if room.players.third = some sid then none else room.players.third } }

/-- One server-side mutation of a single room: a socket joins, a socket
attempts a placement, the game is reset, or a socket disconnects. -/
inductive RoomStep : Room → Room → Prop
  | join (room : Room) (sid : Nat) : RoomStep room (join_room room sid).1
  | place (room : Room) (side : Side) (x y : Int) :
      RoomStep room (place_piece room side x y).1
  | reset (room : Room) : RoomStep room (reset_game room)
  | leave (room : Room) (sid : Nat) : RoomStep room (disconnect room sid)

/-- Room states reachable from a freshly created room with settings `s` by
any sequence of join/place/reset/disconnect events. -/
def RoomReachable (s : Settings) (room : Room) : Prop :=
  Relation.ReflTransGen RoomStep (initialRoom s) room

/-- The retry loop of `/api/create-room`:
`let roomId = nanoid(); while (rooms.has(roomId)) roomId = nanoid();`.
`cands` is the stream of nanoid draws, `live` the codes currently in the
`rooms` map; the result is the first draw that is not live (`none` when the
supplied draws are exhausted without finding one). -/
def genCode (cands live : List String) : Option String :=
  match cands with
  | [] => none
  | c :: rest => if c ∈ live then genCode rest live else some c

/-- Transitions of the key set of the `rooms` map: `create` inserts a
freshly generated code (`/api/create-room`), `joinCreate` inserts a
client-supplied code only if it is not yet present (the implicit creation
in `join_room`), `delete` removes a code (`rooms.delete(roomId)` when the
last socket leaves). -/
inductive RegStep : List String → List String → Prop
  | create (reg cands : List String) (c : String)
      (h : genCode cands reg = some c) : RegStep reg (c :: reg)
  | joinCreate (reg : List String) (c : String) :
      RegStep reg (if c ∈ reg then reg else c :: reg)
  | delete (reg : List String) (c : String) : RegStep reg (reg.erase c)

/-- Registry key sets reachable from the empty server start state. -/
def RegReachable (reg : List String) : Prop :=
  Relation.ReflTransGen RegStep [] reg

/-- Specification-side notion of a winning line for C1: along direction
`(dx, dy)` there is a consecutive run of in-bounds cells equal to the value
at `(x, y)` — `a` cells backwards, the cell itself, `b` cells forwards —
of total length at least `len`. -/
def hasRun (board : List (List Nat)) (x y dx dy : Int) (len : Nat) : Prop :=
  ∃ a b : Nat, len ≤ a + b + 1 ∧
    ∀ i : Int, -(a : Int) ≤ i → i ≤ (b : Int) →
      okCell board (cellAt board x y) (x + i * dx) (y + i * dy)

/-- Specification-side claim of C1: some one of the four directions carries
a run of length at least `w` through `(x, y)`. -/
def hasWinRun (board : List (List Nat)) (x y : Int) (w : Nat) : Prop :=
  ∃ d ∈ dirs, hasRun board x y d.1 d.2 w

/-! ### Lemmas about the `checkWin` counting loops -/

/-- Every step counted by `countDir` really is an in-bounds cell holding
`target`: if `1 ≤ j ≤ countDir …`, the cell `j` steps along `(dx, dy)`
satisfies the loop condition. -/
lemma countDir_sound (board : List (List Nat)) (target : Option Nat) (dx dy : Int) :
    ∀ (fuel : Nat) (x y : Int) (j : Nat), 1 ≤ j →
      j ≤ countDir board target dx dy fuel x y →
      okCell board target (x + (j : Int) * dx) (y + (j : Int) * dy) := by
  intro fuel
  induction fuel with
  | zero =>
      intro x y j h1 h2
      simp only [countDir] at h2
      omega
  | succ n ih =>
      intro x y j h1 h2
      rw [countDir] at h2
      by_cases hok : okCell board target (x + dx) (y + dy)
      · rw [if_pos hok] at h2
        rcases Nat.lt_or_ge j 2 with hj | hj
        · have hj1 : j = 1 := by omega
          subst hj1
          simpa using hok
        · have h2' : j - 1 ≤ countDir board target dx dy n (x + dx) (y + dy) := by
            omega
          have hrec := ih (x + dx) (y + dy) (j - 1) (by omega) h2'
          have hcast : ((j - 1 : Nat) : Int) = (j : Int) - 1 := by omega
          rw [hcast] at hrec
          have e1 : x + (j : Int) * dx = (x + dx) + ((j : Int) - 1) * dx := by ring
          have e2 : y + (j : Int) * dy = (y + dy) + ((j : Int) - 1) * dy := by ring
          rw [e1, e2]
          exact hrec
      · rw [if_neg hok] at h2
        omega

/-- Conversely, `countDir` counts at least as far as any prefix of
satisfied steps, provided the fuel covers it. -/
lemma countDir_complete (board : List (List Nat)) (target : Option Nat) (dx dy : Int) :
    ∀ (fuel : Nat) (x y : Int) (k : Nat), k ≤ fuel →
      (∀ j : Nat, 1 ≤ j → j ≤ k →
        okCell board target (x + (j : Int) * dx) (y + (j : Int) * dy)) →
      k ≤ countDir board target dx dy fuel x y := by
  intro fuel
  induction fuel with
  | zero =>
      intro x y k hk _
      omega
  | succ n ih =>
      intro x y k hk hall
      rcases Nat.eq_zero_or_pos k with rfl | hkpos
      · exact Nat.zero_le _
      · have hok : okCell board target (x + dx) (y + dy) := by
          have h := hall 1 le_rfl hkpos
          simpa using h
        rw [countDir, if_pos hok]
        have hrec : k - 1 ≤ countDir board target dx dy n (x + dx) (y + dy) := by
          apply ih (x + dx) (y + dy) (k - 1) (by omega)
          intro j h1 h2
          have h := hall (j + 1) (by omega) (by omega)
          have e1 : x + ((j + 1 : Nat) : Int) * dx = (x + dx) + (j : Int) * dx := by
            push_cast; ring
          have e2 : y + ((j + 1 : Nat) : Int) * dy = (y + dy) + (j : Int) * dy := by
            push_cast; ring
          rw [e1, e2] at h
          exact h
        omega

/-- A satisfied run along any direction that moves one coordinate by `±1`
per step fits inside the board: at most `board.length` steps. -/
lemma run_le_length (board : List (List Nat)) (target : Option Nat) (dx dy : Int)
    (hd : dx = 1 ∨ dx = -1 ∨ dy = 1 ∨ dy = -1) (x y : Int) (k : Nat)
    (hall : ∀ j : Nat, 1 ≤ j → j ≤ k →
      okCell board target (x + (j : Int) * dx) (y + (j : Int) * dy)) :
    k ≤ board.length := by
  rcases Nat.eq_zero_or_pos k with rfl | hk
  · exact Nat.zero_le _
  have h1 := (hall 1 le_rfl hk).1
  have hkk := (hall k hk le_rfl).1
  unfold inBounds at h1 hkk
  rcases hd with rfl | rfl | rfl | rfl
  · have a1 := h1.1
    have a2 := hkk.2.1
    push_cast at a1 a2
    omega
  · have a1 := h1.2.1
    have a2 := hkk.1
    push_cast at a1 a2
    omega
  · have a1 := h1.2.2.1
    have a2 := hkk.2.2.2
    push_cast at a1 a2
    omega
  · have a1 := h1.2.2.2
    have a2 := hkk.2.2.1
    push_cast at a1 a2
    omega

/-- C1: for every grid and every in-bounds coordinate `(x, y)` whose cell is
non-empty, `checkWin grid x y winCondition` returns true iff one of the four
line directions through `(x, y)` contains a consecutive run of cells equal
to the value at `(x, y)` (counted once) of total length at least
`winCondition`; strictly longer runs also count. -/
theorem checkWin_iff_hasWinRun (board : List (List Nat)) (x y : Int) (w : Nat)
    (hin : inBounds x y board.length)
    (hne : cellAt board x y ≠ some 0) :
    checkWin board x y w = true ↔ hasWinRun board x y w := by
  unfold checkWin
  simp only [if_neg hne, List.any_eq_true, decide_eq_true_eq]
  unfold hasWinRun
  constructor
  · rintro ⟨d, hd, hcount⟩
    refine ⟨d, hd, ?_⟩
    refine ⟨countDir board (cellAt board x y) (-d.1) (-d.2) board.length x y,
            countDir board (cellAt board x y) d.1 d.2 board.length x y,
            by omega, ?_⟩
    intro i hge hle
    rcases lt_trichotomy i 0 with hi | rfl | hi
    · have hj1 : 1 ≤ (-i).toNat := by omega
      have hj2 : (-i).toNat ≤
          countDir board (cellAt board x y) (-d.1) (-d.2) board.length x y := by
        omega
      have hs := countDir_sound board (cellAt board x y) (-d.1) (-d.2)
        board.length x y (-i).toNat hj1 hj2
      have e : (((-i).toNat : Nat) : Int) = -i := by omega
      rw [e] at hs
      have e1 : x + i * d.1 = x + -i * -d.1 := by ring
      have e2 : y + i * d.2 = y + -i * -d.2 := by ring
      rw [e1, e2]
      exact hs
    · have h0 : okCell board (cellAt board x y) x y := ⟨hin, rfl⟩
      simpa using h0
    · have hj1 : 1 ≤ i.toNat := by omega
      have hj2 : i.toNat ≤
          countDir board (cellAt board x y) d.1 d.2 board.length x y := by
        omega
      have hs := countDir_sound board (cellAt board x y) d.1 d.2
        board.length x y i.toNat hj1 hj2
      have e : ((i.toNat : Nat) : Int) = i := by omega
      rw [e] at hs
      exact hs
  · rintro ⟨d, hd, a, b, hab, hrun⟩
    refine ⟨d, hd, ?_⟩
    have hdir : d.1 = 1 ∨ d.1 = -1 ∨ d.2 = 1 ∨ d.2 = -1 := by
      simp only [dirs, List.mem_cons, List.not_mem_nil, or_false] at hd
      rcases hd with rfl | rfl | rfl | rfl <;> decide
    have hdirneg : -d.1 = 1 ∨ -d.1 = -1 ∨ -d.2 = 1 ∨ -d.2 = -1 := by
      rcases hdir with h | h | h | h <;> rw [h] <;> norm_num
    have hfall : ∀ j : Nat, 1 ≤ j → j ≤ b →
        okCell board (cellAt board x y) (x + (j : Int) * d.1) (y + (j : Int) * d.2) := by
      intro j h1 h2
      exact hrun (j : Int) (by omega) (by omega)
    have hball : ∀ j : Nat, 1 ≤ j → j ≤ a →
        okCell board (cellAt board x y) (x + (j : Int) * -d.1) (y + (j : Int) * -d.2) := by
      intro j h1 h2
      have h := hrun (-(j : Int)) (by omega) (by omega)
      have e1 : x + -(j : Int) * d.1 = x + (j : Int) * -d.1 := by ring
      have e2 : y + -(j : Int) * d.2 = y + (j : Int) * -d.2 := by ring
      rw [e1, e2] at h
      exact h
    have hb' : b ≤ countDir board (cellAt board x y) d.1 d.2 board.length x y :=
      countDir_complete board (cellAt board x y) d.1 d.2 board.length x y b
        (run_le_length board (cellAt board x y) d.1 d.2 hdir x y b hfall) hfall
    have ha' : a ≤ countDir board (cellAt board x y) (-d.1) (-d.2) board.length x y :=
      countDir_complete board (cellAt board x y) (-d.1) (-d.2) board.length x y a
        (run_le_length board (cellAt board x y) (-d.1) (-d.2) hdirneg x y a hball) hball
    omega

/-- Witness for C1: a concrete 3×3 board with a horizontal black run of
length 3 through the in-bounds, non-empty cell `(1, 0)`. -/
theorem checkWin_iff_hasWinRun_witness :
    inBounds 1 0 ([[1, 1, 1], [0, 0, 0], [0, 0, 0]] : List (List Nat)).length ∧
    cellAt [[1, 1, 1], [0, 0, 0], [0, 0, 0]] 1 0 ≠ some 0 ∧
    (checkWin [[1, 1, 1], [0, 0, 0], [0, 0, 0]] 1 0 3 = true ↔
      hasWinRun [[1, 1, 1], [0, 0, 0], [0, 0, 0]] 1 0 3) :=
  ⟨by decide, by decide,
    checkWin_iff_hasWinRun [[1, 1, 1], [0, 0, 0], [0, 0, 0]] 1 0 3
      (by decide) (by decide)⟩

/-- Writing an in-range cell with `setCell` and reading it back with
`cellAt` yields the written value. -/
lemma cellAt_setCell_self (board : List (List Nat)) (x y : Int) (v : Nat)
    (hx : 0 ≤ x) (hy : 0 ≤ y) (hylen : y.toNat < board.length)
    (hxlen : x.toNat < ((board.get? y.toNat).getD []).length) :
    cellAt (setCell board x y v) x y = some v := by
  unfold cellAt setCell
  rw [if_pos ⟨hx, hy⟩, List.get?_set_eq_of_lt _ hylen]
  simp only [Option.getD_some]
  exact List.get?_set_eq_of_lt _ hxlen

/-- C2: a `place_piece` event from a connection bound to a playing seat, on
a room whose board has the configured dimensions, succeeds — the cell is
written with that seat's number — iff `(x, y)` is in bounds, the cell is
empty, and the seat matches `room.turn`; when any condition fails the event
returns the room unchanged and emits nothing. -/
theorem place_piece_success_iff (room : Room) (side : Side) (x y : Int)
    (hside : side = Side.black ∨ side = Side.white ∨ side = Side.green)
    (hlen : room.board.length = room.settings.boardSize)
    (hrow : ∀ row ∈ room.board, row.length = room.settings.boardSize) :
    (inBounds x y room.settings.boardSize ∧ cellAt room.board x y = some 0 ∧
        room.turn = playerNumOf side →
      (place_piece room side x y).1.board = setCell room.board x y (playerNumOf side) ∧
      cellAt (place_piece room side x y).1.board x y = some (playerNumOf side)) ∧
    (¬(inBounds x y room.settings.boardSize ∧ cellAt room.board x y = some 0 ∧
        room.turn = playerNumOf side) →
      place_piece room side x y = (room, [])) := by
  constructor
  · rintro ⟨hb, hc, ht⟩
    obtain ⟨hx0, hx1, hy0, hy1⟩ := hb
    have hylen : y.toNat < room.board.length := by
      rw [hlen]; omega
    have hxlen : x.toNat < ((room.board.get? y.toNat).getD []).length := by
      rw [List.get?_eq_get hylen]
      simp only [Option.getD_some]
      rw [hrow _ (List.get_mem _ _ _)]
      omega
    have hcell2 : cellAt (setCell room.board x y (playerNumOf side)) x y =
        some (playerNumOf side) :=
      cellAt_setCell_self room.board x y (playerNumOf side) hx0 hy0 hylen hxlen
    simp only [place_piece]
    rw [if_neg (not_not_intro hside), if_neg (not_not_intro ht),
      if_neg (not_not_intro ⟨hx0, hx1, hy0, hy1⟩), if_neg (not_not_intro hc)]
    split_ifs <;> exact ⟨rfl, hcell2⟩
  · intro hfail
    simp only [place_piece]
    rw [if_neg (not_not_intro hside)]
    by_cases ht : room.turn ≠ playerNumOf side
    · rw [if_pos ht]
    · rw [if_neg ht]
      by_cases hbnd : ¬inBounds x y room.settings.boardSize
      · rw [if_pos hbnd]
      · rw [if_neg hbnd]
        by_cases hcell : cellAt room.board x y ≠ some 0
        · rw [if_pos hcell]
        · exact absurd ⟨not_not.1 hbnd, not_not.1 hcell, not_not.1 ht⟩ hfail

/-- A concrete two-player room (black and white seats occupied, black to
move, fresh 15×15 board) used as a witness input. -/
def sampleRoom : Room :=
  { players := { black := some 10, white := some 20, third := none }
    board := createEmptyBoard 15
    turn := 1
    settings := { playerCount := 2, winCondition := 5, boardSize := 15 } }

/-- Witness for C2: black places at `(7, 7)` in a fresh two-player room. -/
theorem place_piece_success_iff_witness :
    (Side.black = Side.black ∨ Side.black = Side.white ∨ Side.black = Side.green) ∧
    sampleRoom.board.length = sampleRoom.settings.boardSize ∧
    (∀ row ∈ sampleRoom.board, row.length = sampleRoom.settings.boardSize) ∧
    ((inBounds 7 7 sampleRoom.settings.boardSize ∧
        cellAt sampleRoom.board 7 7 = some 0 ∧
        sampleRoom.turn = playerNumOf Side.black →
      (place_piece sampleRoom Side.black 7 7).1.board =
        setCell sampleRoom.board 7 7 (playerNumOf Side.black) ∧
      cellAt (place_piece sampleRoom Side.black 7 7).1.board 7 7 =
        some (playerNumOf Side.black)) ∧
    (¬(inBounds 7 7 sampleRoom.settings.boardSize ∧
        cellAt sampleRoom.board 7 7 = some 0 ∧
        sampleRoom.turn = playerNumOf Side.black) →
      place_piece sampleRoom Side.black 7 7 = (sampleRoom, []))) :=
  ⟨by decide, by decide, by decide,
    place_piece_success_iff sampleRoom Side.black 7 7
      (by decide) (by decide) (by decide)⟩

/-- A 15×15 two-player room in which black has four in a row at
`(0,0)…(3,0)` and it is black's move: one placement at `(4, 0)` wins. -/
def preWinRoom : Room :=
  { players := { black := some 10, white := some 20, third := none }
    board :=
      (List.replicate 4 1 ++ List.replicate 11 0) ::
      (List.replicate 4 2 ++ List.replicate 11 0) ::
      List.replicate 13 (List.replicate 15 0)
    turn := 1
    settings := { playerCount := 2, winCondition := 5, boardSize := 15 } }

/-- C3 (failing input): black's move at `(4, 0)` ends the game — the server
broadcasts `game_over` — yet the very next `place_piece` from black (the
previous winner, whose turn was never rotated) is accepted: the board
changes again and fresh events are broadcast, instead of the rejection the
specification requires after a terminal state. -/
theorem place_piece_after_game_over_accepted :
    (place_piece preWinRoom Side.black 4 0).2 =
      [Event.piecePlaced 4 0 Side.black, Event.gameOverWin Side.black] ∧
    (place_piece (place_piece preWinRoom Side.black 4 0).1 Side.black 7 7).1.board ≠
      (place_piece preWinRoom Side.black 4 0).1.board ∧
    (place_piece (place_piece preWinRoom Side.black 4 0).1 Side.black 7 7).2 ≠
      ([] : List Event) := by
  decide

/-- A 3×3 room one move from a simultaneous win (main diagonal) and full
board: black to move at the single empty cell `(2, 2)`. -/
def drawWinRoom : Room :=
  { players := { black := some 10, white := some 20, third := none }
    board := [[1, 2, 2], [2, 1, 1], [1, 2, 0]]
    turn := 1
    settings := { playerCount := 2, winCondition := 3, boardSize := 3 } }

/-- C4: `checkDraw grid` is true iff no cell of the grid is empty; and a
successful placement whose resulting board wins is reported as a win for
the placing seat — the win check runs before the draw check, so a move that
also fills the last empty cell is a win and never a draw. -/
theorem checkDraw_iff_and_win_before_draw :
    (∀ board : List (List Nat),
      checkDraw board = true ↔ ∀ x y : Int, cellAt board x y ≠ some 0) ∧
    (∀ (room : Room) (side : Side) (x y : Int),
      (side = Side.black ∨ side = Side.white ∨ side = Side.green) →
      room.turn = playerNumOf side →
      inBounds x y room.settings.boardSize →
      cellAt room.board x y = some 0 →
      checkWin (setCell room.board x y (playerNumOf side)) x y
        room.settings.winCondition = true →
      checkDraw (setCell room.board x y (playerNumOf side)) = true →
      (place_piece room side x y).2 =
        [Event.piecePlaced x y side, Event.gameOverWin side]) := by
  constructor
  · intro board
    unfold checkDraw
    rw [List.all_eq_true]
    constructor
    · intro hall x y hcell
      unfold cellAt at hcell
      by_cases hxy : 0 ≤ x ∧ 0 ≤ y
      · rw [if_pos hxy] at hcell
        rcases hrow : board.get? y.toNat with _ | row
        · rw [hrow] at hcell
          simp at hcell
        · rw [hrow] at hcell
          simp only [Option.getD_some] at hcell
          have hrowmem : row ∈ board := List.get?_mem hrow
          have hcmem : (0 : Nat) ∈ row := List.get?_mem hcell
          have h := hall row hrowmem
          rw [List.all_eq_true] at h
          have h0 := h 0 hcmem
          simp at h0
      · rw [if_neg hxy] at hcell
        simp at hcell
    · intro hnone row hrowmem
      rw [List.all_eq_true]
      intro c hcmem
      rw [decide_eq_true_eq]
      intro hc0
      subst hc0
      obtain ⟨ny, hny⟩ := List.get?_of_mem hrowmem
      obtain ⟨nx, hnx⟩ := List.get?_of_mem hcmem
      apply hnone (nx : Int) (ny : Int)
      unfold cellAt
      rw [if_pos (by omega : (0 : Int) ≤ (nx : Int) ∧ (0 : Int) ≤ (ny : Int))]
      have enx : ((nx : Int)).toNat = nx := by omega
      have eny : ((ny : Int)).toNat = ny := by omega
      rw [enx, eny, hny]
      simpa using hnx
  · intro room side x y hside ht hb hc hwin _
    simp only [place_piece]
    rw [if_neg (not_not_intro hside), if_neg (not_not_intro ht),
      if_neg (not_not_intro hb), if_neg (not_not_intro hc), if_pos hwin]

/-- Witness for C4: in `drawWinRoom`, black's move at `(2, 2)` both wins
and fills the board, and the emitted events are the win events. -/
theorem checkDraw_iff_and_win_before_draw_witness :
    (Side.black = Side.black ∨ Side.black = Side.white ∨ Side.black = Side.green) ∧
    drawWinRoom.turn = playerNumOf Side.black ∧
    inBounds 2 2 drawWinRoom.settings.boardSize ∧
    cellAt drawWinRoom.board 2 2 = some 0 ∧
    checkWin (setCell drawWinRoom.board 2 2 (playerNumOf Side.black)) 2 2
      drawWinRoom.settings.winCondition = true ∧
    checkDraw (setCell drawWinRoom.board 2 2 (playerNumOf Side.black)) = true ∧
    (place_piece drawWinRoom Side.black 2 2).2 =
      [Event.piecePlaced 2 2 Side.black, Event.gameOverWin Side.black] :=
  ⟨by decide, by decide, by decide, by decide, by decide, by decide,
    checkDraw_iff_and_win_before_draw.2 drawWinRoom Side.black 2 2
      (by decide) (by decide) (by decide) (by decide) (by decide) (by decide)⟩

/-- `join_room` never touches the turn or the settings. -/
lemma join_room_frame (room : Room) (sid : Nat) :
    (join_room room sid).1.turn = room.turn ∧
    (join_room room sid).1.settings = room.settings := by
  unfold join_room
  split_ifs <;> exact ⟨rfl, rfl⟩

/-- `place_piece` never touches the settings, and either leaves the turn
alone or rotates it with `getOppositeTurn`. -/
lemma place_piece_settings_turn (room : Room) (side : Side) (x y : Int) :
    (place_piece room side x y).1.settings = room.settings ∧
    ((place_piece room side x y).1.turn = room.turn ∨
      (place_piece room side x y).1.turn =
        getOppositeTurn room.turn room.settings.playerCount) := by
  simp only [place_piece]
  split_ifs <;> simp

/-- For any turn value, two-player rotation lands on black or white. -/
lemma getOppositeTurn_two (t : Nat) :
    getOppositeTurn t 2 = 1 ∨ getOppositeTurn t 2 = 2 := by
  unfold getOppositeTurn
  by_cases h : t = 1
  · simp [h]
  · simp [h]

/-- C5: with `playerCount = 2` the rotation is Black → White → Black and
with `playerCount = 3` it is Black → White → Third → Black; consequently,
in every state of a two-player room reachable by any sequence of joins,
placements, resets and disconnects, the turn never references the third
seat. -/
theorem turn_rotation_and_no_third_turn :
    (getOppositeTurn 1 2 = 2 ∧ getOppositeTurn 2 2 = 1) ∧
    (getOppositeTurn 1 3 = 2 ∧ getOppositeTurn 2 3 = 3 ∧ getOppositeTurn 3 3 = 1) ∧
    (∀ (s : Settings) (room : Room), s.playerCount = 2 →
      RoomReachable s room → room.turn = 1 ∨ room.turn = 2) := by
  refine ⟨⟨rfl, rfl⟩, ⟨rfl, rfl, rfl⟩, ?_⟩
  intro s room hpc hreach
  suffices h : room.settings = s ∧ (room.turn = 1 ∨ room.turn = 2) by exact h.2
  unfold RoomReachable at hreach
  induction hreach with
  | refl => exact ⟨rfl, Or.inl rfl⟩
  | tail hsteps hstep ih =>
      obtain ⟨hset, hturn⟩ := ih
      rename_i b c
      cases hstep with
      | join sid =>
          obtain ⟨ht, hs⟩ := join_room_frame b sid
          exact ⟨by rw [hs, hset], by rw [ht]; exact hturn⟩
      | place side x y =>
          obtain ⟨hs, ht⟩ := place_piece_settings_turn b side x y
          refine ⟨by rw [hs, hset], ?_⟩
          rcases ht with h | h
          · rw [h]; exact hturn
          · rw [h, hset, hpc]
            exact getOppositeTurn_two b.turn
      | reset =>
          exact ⟨by simpa [reset_game] using hset, Or.inl rfl⟩
      | leave sid =>
          exact ⟨by simpa [disconnect] using hset, by simpa [disconnect] using hturn⟩

/-- Witness for C5: a two-player room after one placement from the initial
state still has its turn on black or white. -/
theorem turn_rotation_and_no_third_turn_witness :
    ({ playerCount := 2, winCondition := 5, boardSize := 15 } :
        Settings).playerCount = 2 ∧
    ((place_piece (initialRoom { playerCount := 2, winCondition := 5, boardSize := 15 })
        Side.black 0 0).1.turn = 1 ∨
      (place_piece (initialRoom { playerCount := 2, winCondition := 5, boardSize := 15 })
        Side.black 0 0).1.turn = 2) :=
  ⟨rfl,
    turn_rotation_and_no_third_turn.2.2 _ _ rfl
      (Relation.ReflTransGen.single
        (RoomStep.place (initialRoom { playerCount := 2, winCondition := 5, boardSize := 15 })
          Side.black 0 0))⟩

/-- C6: a join binds the first unoccupied playing seat in the fixed order
black, white, third (third considered only when `playerCount = 3`), falls
back to spectator when every playing seat is occupied, and never displaces
an existing occupant. -/
theorem join_room_assignment (room : Room) (sid : Nat) :
    (room.players.black = none →
      (join_room room sid).2 = Side.black ∧
      (join_room room sid).1.players.black = some sid ∧
      (join_room room sid).1.players.white = room.players.white ∧
      (join_room room sid).1.players.third = room.players.third) ∧
    (room.players.black ≠ none → room.players.white = none →
      (join_room room sid).2 = Side.white ∧
      (join_room room sid).1.players.white = some sid ∧
      (join_room room sid).1.players.black = room.players.black ∧
      (join_room room sid).1.players.third = room.players.third) ∧
    (room.players.black ≠ none → room.players.white ≠ none →
      room.settings.playerCount = 3 → room.players.third = none →
      (join_room room sid).2 = Side.green ∧
      (join_room room sid).1.players.third = some sid ∧
      (join_room room sid).1.players.black = room.players.black ∧
      (join_room room sid).1.players.white = room.players.white) ∧
    (room.players.black ≠ none → room.players.white ≠ none →
      (room.settings.playerCount ≠ 3 ∨ room.players.third ≠ none) →
      (join_room room sid).2 = Side.spectator ∧
      (join_room room sid).1 = room) ∧
    (∀ c, room.players.black = some c → (join_room room sid).1.players.black = some c) ∧
    (∀ c, room.players.white = some c → (join_room room sid).1.players.white = some c) ∧
    (∀ c, room.players.third = some c → (join_room room sid).1.players.third = some c) := by
  unfold join_room
  split_ifs with h1 h2 h3
  · exact ⟨fun _ => ⟨rfl, rfl, rfl, rfl⟩,
      fun hb _ => absurd h1 hb,
      fun hb _ _ _ => absurd h1 hb,
      fun hb _ _ => absurd h1 hb,
      fun c hc => by simp [h1] at hc,
      fun c hc => hc,
      fun c hc => hc⟩
  · exact ⟨fun hb => absurd hb h1,
      fun _ _ => ⟨rfl, rfl, rfl, rfl⟩,
      fun _ hw _ _ => absurd h2 hw,
      fun _ hw _ => absurd h2 hw,
      fun c hc => hc,
      fun c hc => by simp [h2] at hc,
      fun c hc => hc⟩
  · exact ⟨fun hb => absurd hb h1,
      fun _ hw => absurd hw h2,
      fun _ _ _ _ => ⟨rfl, rfl, rfl, rfl⟩,
      fun _ _ hor => by
        rcases hor with h | h
        · exact absurd h3.1 h
        · exact absurd h3.2 h,
      fun c hc => hc,
      fun c hc => hc,
      fun c hc => by simp [h3.2] at hc⟩
  · exact ⟨fun hb => absurd hb h1,
      fun _ hw => absurd hw h2,
      fun _ _ hpc3 hth => absurd ⟨hpc3, hth⟩ h3,
      fun _ _ _ => ⟨rfl, rfl⟩,
      fun c hc => hc,
      fun c hc => hc,
      fun c hc => hc⟩

/-- Witness for C6: joining a fresh two-player room assigns black. -/
theorem join_room_assignment_witness :
    (join_room (initialRoom { playerCount := 2, winCondition := 5, boardSize := 15 }) 42).2 =
      Side.black ∧
    (join_room (initialRoom { playerCount := 2, winCondition := 5, boardSize := 15 })
        42).1.players.black = some 42 := by
  have h :=
    (join_room_assignment
      (initialRoom { playerCount := 2, winCondition := 5, boardSize := 15 }) 42).1 rfl
  exact ⟨h.1, h.2.1⟩

/-- C7: reset installs an all-empty `boardSize × boardSize` board and puts
the turn back to black, while the settings and the seat occupancy are left
unchanged. -/
theorem reset_game_frame (room : Room) :
    (reset_game room).board.length = room.settings.boardSize ∧
    (∀ row ∈ (reset_game room).board,
      row.length = room.settings.boardSize ∧ ∀ c ∈ row, c = 0) ∧
    (reset_game room).turn = 1 ∧
    (reset_game room).settings = room.settings ∧
    (reset_game room).players = room.players := by
  refine ⟨by simp [reset_game, createEmptyBoard], ?_, rfl, rfl, rfl⟩
  intro row hrow
  simp only [reset_game, createEmptyBoard] at hrow
  have hrep := List.eq_of_mem_replicate hrow
  subst hrep
  exact ⟨by simp, fun c hc => List.eq_of_mem_replicate hc⟩

/-- Witness for C7: resetting the sample room. -/
theorem reset_game_frame_witness :
    (reset_game sampleRoom).board.length = sampleRoom.settings.boardSize ∧
    (reset_game sampleRoom).turn = 1 ∧
    (reset_game sampleRoom).settings = sampleRoom.settings ∧
    (reset_game sampleRoom).players = sampleRoom.players :=
  ⟨(reset_game_frame sampleRoom).1, (reset_game_frame sampleRoom).2.2.1,
    (reset_game_frame sampleRoom).2.2.2.1, (reset_game_frame sampleRoom).2.2.2.2⟩

/-- A three-player room with all seats occupied, used to exhibit the
`get_room_state` payload. -/
def threeRoom : Room :=
  { players := { black := some 1, white := some 2, third := some 3 }
    board := createEmptyBoard 15
    turn := 1
    settings := { playerCount := 3, winCondition := 5, boardSize := 15 } }

/-- C8 (failing input): the reply of the `get_room_state` handler carries
only black/white occupancy and the turn; it omits the third seat (even in a
three-player room) and the settings, so it is not the canonical view that
every other `room_state` broadcast of the server carries. -/
theorem get_room_state_omits_third_and_settings :
    get_room_state threeRoom = Event.roomState true true none 1 none ∧
    roomStateFull threeRoom =
      Event.roomState true true (some true) 1
        (some { playerCount := 3, winCondition := 5, boardSize := 15 }) ∧
    get_room_state threeRoom ≠ roomStateFull threeRoom := by
  refine ⟨rfl, rfl, ?_⟩
  decide

/-- `genCode` only ever returns a code that is not yet live. -/
lemma genCode_not_mem (cands live : List String) (c : String)
    (h : genCode cands live = some c) : c ∉ live := by
  induction cands with
  | nil => simp [genCode] at h
  | cons a rest ih =>
      rw [genCode] at h
      by_cases ha : a ∈ live
      · rw [if_pos ha] at h
        exact ih h
      · rw [if_neg ha] at h
        have hac := Option.some.inj h
        subst hac
        exact ha

/-- C9: in every key set of the rooms map reachable from the empty server
state by code creations (with collision retry), implicit join-creations and
deletions, the live codes are pairwise distinct. -/
theorem registry_codes_nodup (reg : List String) (h : RegReachable reg) :
    reg.Nodup := by
  unfold RegReachable at h
  induction h with
  | refl => exact List.nodup_nil
  | tail hsteps hstep ih =>
      rename_i b c'
      cases hstep with
      | create cands cd hc =>
          exact List.nodup_cons.mpr ⟨genCode_not_mem cands b cd hc, ih⟩
      | joinCreate cd =>
          by_cases hin : cd ∈ b
          · rw [if_pos hin]
            exact ih
          · rw [if_neg hin]
            exact List.nodup_cons.mpr ⟨hin, ih⟩
      | delete cd => exact ih.erase cd

/-- Witness for C9: one explicit creation from the empty registry. -/
theorem registry_codes_nodup_witness : (["ABC123"] : List String).Nodup :=
  registry_codes_nodup ["ABC123"]
    (Relation.ReflTransGen.single (RegStep.create [] ["ABC123"] "ABC123" (by decide)))

/-- C10: the reset handler checks only that the room exists: the sender's
binding is irrelevant (a spectator, a seated player or a stranger all
trigger the same behaviour), and on an existing room it performs the full
reset — all-empty board of the configured size, turn back to black —
followed by the broadcasts; on an unknown room it does nothing. -/
theorem reset_handler_ignores_sender (roomOpt : Option Room) (s1 s2 : Side) :
    reset_handler roomOpt s1 = reset_handler roomOpt s2 ∧
    (∀ room, roomOpt = some room →
      (reset_handler roomOpt s1).1 = some (reset_game room) ∧
      (reset_game room).board = createEmptyBoard room.settings.boardSize ∧
      (reset_game room).turn = 1 ∧
      (reset_handler roomOpt s1).2 =
        [Event.resetDone (reset_game room).board Side.black,
          roomStateFull (reset_game room)]) ∧
    (roomOpt = none → reset_handler roomOpt s1 = (none, [])) := by
  refine ⟨rfl, ?_, ?_⟩
  · rintro room rfl
    exact ⟨rfl, rfl, rfl, rfl⟩
  · rintro rfl
    rfl

/-- Witness for C10: a spectator's reset of the sample room equals a
seated player's reset and really resets. -/
theorem reset_handler_ignores_sender_witness :
    reset_handler (some sampleRoom) Side.spectator =
      reset_handler (some sampleRoom) Side.black ∧
    (reset_handler (some sampleRoom) Side.spectator).1 =
      some (reset_game sampleRoom) :=
  ⟨(reset_handler_ignores_sender (some sampleRoom) Side.spectator Side.black).1,
    ((reset_handler_ignores_sender (some sampleRoom) Side.spectator Side.black).2.1
      sampleRoom rfl).1⟩

end Gomoku
